import Mathlib

/-!
Publisher: connection lifecycle and send-with-retry.

A shallow embedding of `publisher.go`.  The Go methods on `*Publisher` become
functions that take the Publisher value and the history of external calls made
so far, and return the new Publisher value, the extended history and the
returned `error` (`none` for Go's `nil`).

The packages the program calls (`net`, `stompngo`, `os`, and the command-line
flags) are not part of the program.  They are a parameter `Env`: every external
call is answered by a function of the history of calls made before it, so an
answer may differ from one call to the next.  Console output (`fmt.Print*`) has
no influence on state or control flow and is left out.
-/

namespace Publisher

/-- The Go type `stompngo.Headers` is `[]string`: keys and values alternate. -/
abbrev Headers := List String

/-- One call that leaves the program towards the transport or the messaging session. -/
inductive Event where
  /-- The call `net.Dial(network, address)`. -/
  | dial (network address : String)
  /-- The call `stompngo.Connect(conn, headers)`. -/
  | stompConnect (conn : Nat) (h : Headers)
  /-- The call `session.Send(headers, body)`. -/
  | stompSend (sess : Nat) (h : Headers) (body : String)
  /-- The call `session.Disconnect(headers)`. -/
  | stompDisconnect (sess : Nat) (h : Headers)
  /-- The call `conn.Close()`. -/
  | close (conn : Nat)
  deriving DecidableEq

/-- The history of external calls, oldest first. -/
abbrev Trace := List Event

/-- The world outside the program.  Handles (`net.Conn`, `*stompngo.Connection`)
are numbers chosen by the world; errors are their `%v` text. -/
structure Env where
  /-- The flag `*username`. -/
  username : String
  /-- The flag `*password`. -/
  password : String
  /-- The result of `os.Hostname()`; `none` when it returns an error. -/
  hostname : Option String
  /-- Answer of `net.Dial`: a connection, or an error (with a nil connection). -/
  dial : Trace → String → String → Except String Nat
  /-- Answer of `stompngo.Connect`: the returned pointer (`none` for nil) and the error. -/
  stompConnect : Trace → Nat → Headers → Option Nat × Option String
  /-- Answer of `Send` on a non-nil session: the error, if any. -/
  stompSend : Trace → Nat → Headers → String → Option String
  /-- Answer of `Disconnect` on a non-nil session: the error, if any. -/
  stompDisconnect : Trace → Nat → Headers → Option String
  /-- Answer of `Close` on a non-nil connection: the error, if any. -/
  close : Trace → Nat → Option String

end Publisher

/-- The struct `Publisher`.  A handle is `none` for Go's nil; the array
`messageCache [2]string` is the pair (index 0, index 1). -/
structure Publisher where
  transportConn : Option Nat
  transportProtocol : String
  messageProtocol : String
  stompConnHeader : Publisher.Headers
  stompConn : Option Nat
  stompMsgHeader : Publisher.Headers
  stompMsgHeaderSet : Bool
  connected : Bool
  messageCache : String × String
  MBSTarget : String
  deriving DecidableEq

namespace Publisher

/-- The zero value `var conn Publisher` of `main`. -/
def zero : Publisher :=
  { transportConn := none, transportProtocol := "", messageProtocol := "",
    stompConnHeader := [], stompConn := none, stompMsgHeader := [],
    stompMsgHeaderSet := false, connected := false, messageCache := ("", ""),
    MBSTarget := "" }

/-- What a method that returns `error` gives back: the Publisher, the history and the error. -/
structure Ret where
  p : Publisher
  tr : Trace
  err : Option String
  deriving DecidableEq

/-- A method either returns, or panics on a nil handle (a method call on a nil
`net.Conn` or a nil `*stompngo.Connection` is a nil dereference; nothing in the
program recovers, so the process ends). -/
inductive Outcome where
  | ret (r : Ret)
  | panic (tr : Trace)
  deriving DecidableEq

/-- The function `strings.ToLower`, on the letters A to Z.  The program only
compares the result with "stomp", and no character outside A to Z has one of
s, t, o, m, p as its lower case, so that comparison is the same. -/
def toLower (s : String) : String :=
  ⟨s.data.map fun c => if 'A' ≤ c ∧ c ≤ 'Z' then Char.ofNat (c.toNat + 32) else c⟩

/-- The method `isConnected`. -/
def isConnected (p : Publisher) : Bool := p.connected

/-- The method `Connect`.  In the `switch`, the cases "ampq" and "openwire" fall
through to `default`, so every lowered name other than "stomp" takes the
"not supported" return. -/
def Connect (env : Env) (p : Publisher) (tr : Trace)
    (tpProtocol msgProtocol feederport : String) : Ret :=
  let p := { p with transportProtocol := tpProtocol, messageProtocol := msgProtocol }
  let tr1 := tr ++ [Event.dial p.transportProtocol feederport]
  match env.dial tr p.transportProtocol feederport with
  | .error _ =>
    -- "failed to connect" is printed; control leaves the `if` and reaches `return nil`
    { p := { p with transportConn := none }, tr := tr1, err := none }
  | .ok c =>
    let p := { p with transportConn := some c }
    if toLower p.messageProtocol = "stomp" then
      let h := ["host", feederport, "accept-version", "1.1"]
      let h := if env.username ≠ "" then (h ++ ["login", env.username]) ++ ["passcode", env.password] else h
      let p := { p with stompConnHeader := h }
      let tr2 := tr1 ++ [Event.stompConnect c p.stompConnHeader]
      match env.stompConnect tr1 c p.stompConnHeader with
      | (sess, some e) =>
        { p := { p with stompConn := sess }, tr := tr2,
          err := some ("ERROR: Connect: failed to connect [" ++ p.transportProtocol ++ "]["
            ++ p.messageProtocol ++ "] on host: " ++ feederport ++ ", with ERROR: " ++ e) }
      | (sess, none) =>
        { p := { p with stompConn := sess, connected := true }, tr := tr2, err := none }
    else
      { p := p, tr := tr1,
        err := some ("ERROR: Connect: message protocol [" ++ p.messageProtocol ++ "]: not supported") }

/-- The method `Disconnect`. -/
def Disconnect (env : Env) (p : Publisher) (tr : Trace) : Outcome :=
  if p.isConnected then
    if toLower p.messageProtocol = "stomp" then
      match p.stompConn with
      | none => .panic tr
      | some s =>
        let tr1 := tr ++ [Event.stompDisconnect s p.stompConnHeader]
        match env.stompDisconnect tr s p.stompConnHeader with
        | some e =>
          .ret { p := p, tr := tr1,
                 err := some ("ERROR: Disconnect: disconnect [" ++ p.messageProtocol
                   ++ "] failed with " ++ e) }
        | none =>
          match p.transportConn with
          | none => .panic tr1
          | some c =>
            let tr2 := tr1 ++ [Event.close c]
            match env.close tr1 c with
            | some e =>
              .ret { p := p, tr := tr2,
                     err := some ("ERROR: Disconnect: close [" ++ p.transportProtocol
                       ++ "] failed with " ++ e) }
            | none => .ret { p := { p with connected := false }, tr := tr2, err := none }
    else
      .ret { p := { p with connected := false }, tr := tr, err := none }
  else
    .ret { p := p, tr := tr,
           err := some "ERROR: Disconnect: disconnect attempt when not connected" }

/-- The method `SetMsgHeader`. -/
def SetMsgHeader (env : Env) (p : Publisher) (to_ from_ via version format : String) : Publisher :=
  let p := { p with stompMsgHeader := p.stompMsgHeader ++ ["destination", to_] }
  let p := { p with stompMsgHeader := p.stompMsgHeader ++ ["username", from_] }
  let p := { p with stompMsgHeader := p.stompMsgHeader ++ ["version", via ++ " " ++ version] }
  let p := { p with stompMsgHeader := p.stompMsgHeader ++ ["format", format] }
  let p := { p with stompMsgHeader := p.stompMsgHeader ++ ["persistent", "true"] }
  let p := { p with stompMsgHeader := p.stompMsgHeader ++ ["priority", "5"] }
  let fqhn := match env.hostname with
    | some name => name
    | none => "unknown"
  let p := { p with stompMsgHeader := p.stompMsgHeader ++ ["hostname", fqhn] }
  { p with stompMsgHeaderSet := true }

/-- The method `Send`.  The label `TOP` with `goto TOP` is a loop; `fuel` bounds
the number of passes through `TOP`, and `none` means the bound was reached
before the method returned. -/
def Send (env : Env) : Nat → Publisher → Trace → String → Option Outcome
  | 0, _, _, _ => none
  | fuel + 1, p, tr, message =>
    if p.isConnected then
      if !p.stompMsgHeaderSet then
        some (.ret { p := p, tr := tr,
                     err := some "ERROR: Send: send attempt to broker with header not set." })
      else
        let p := { p with messageCache := (p.messageCache.1, p.messageCache.1) }
        let p := { p with messageCache := (message, p.messageCache.2) }
        match p.stompConn with
        | none => some (.panic tr)
        | some s =>
          let tr1 := tr ++ [Event.stompSend s p.stompMsgHeader message]
          match env.stompSend tr s p.stompMsgHeader message with
          | none => some (.ret { p := p, tr := tr1, err := none })
          | some _ =>
            match Disconnect env p tr1 with
            | .panic t => some (.panic t)
            | .ret d =>
              let p := { d.p with connected := false }
              let r := Connect env p d.tr p.transportProtocol p.messageProtocol p.MBSTarget
              let p := r.p
              match p.stompConn with
              | none => some (.panic r.tr)
              | some s2 =>
                let tr2 := r.tr ++ [Event.stompSend s2 p.stompMsgHeader p.messageCache.2]
                Send env fuel p tr2 message
    else
      some (.ret { p := p, tr := tr,
                   err := some "ERROR: Send: send attempt to broker when not connected." })

/-- The method `GetActivePublisher`. -/
def GetActivePublisher (p : Publisher) : String := p.MBSTarget

/-- The pieces of a text between newline characters: what the standard library
function `strings.Split(text, "\n")` returns.  A text with k newlines has k + 1
pieces, the empty text has the single piece "". -/
def splitNewline : List Char → List (List Char)
  | [] => [[]]
  | c :: cs =>
    if c = '\n' then [] :: splitNewline cs
    else
      match splitNewline cs with
      | [] => [[c]]
      | l :: ls => (c :: l) :: ls

/-- The call `strings.Split(text, "\n")`. -/
def Split (text : String) : List String := (splitNewline text.data).map String.mk

/-- The `for _, line := range lines` loop of `SendFile`.  Every call of `Send`
gets the bound `fuel`; `calls` collects the arguments of the calls of `Send`
made so far (it is not program state). -/
def SendFile.loop (env : Env) (fuel : Nat) :
    List String → Publisher → Trace → List String → Option (Outcome × List String)
  | [], p, tr, calls => some (.ret { p := p, tr := tr, err := none }, calls)
  | line :: rest, p, tr, calls =>
    if line ≠ "" then
      match Send env fuel p tr line with
      | none => none
      | some (.panic t) => some (.panic t, calls ++ [line])
      | some (.ret r) =>
        match r.err with
        | some e =>
          some (.ret { r with err := some ("ERROR: SendFile: send failed: " ++ e) },
                calls ++ [line])
        | none => SendFile.loop env fuel rest r.p r.tr (calls ++ [line])
    else SendFile.loop env fuel rest p tr calls

/-- The method `SendFile`.  The argument `readFile` is what `ioutil.ReadFile(pathToFile)`
returned: the content, or an error.  The optional `debug` argument only prints. -/
def SendFile (env : Env) (fuel : Nat) (p : Publisher) (tr : Trace)
    (readFile : Except String String) : Option (Outcome × List String) :=
  match readFile with
  | .error e =>
    some (.ret { p := p, tr := tr,
                 err := some ("ERROR: SendFile: ioutil.ReadFile failed: " ++ e) }, [])
  | .ok text => SendFile.loop env fuel (Split text) p tr []

/-- The call `stdin.ReadString` with the newline as delimiter, on the unread
input: the text up to and including the first newline, no error, and what is
left; or, when no newline is left, all the remaining text together with an
error (end of input).  The results are (line, error is not nil, rest). -/
def ReadString : List Char → List Char × Bool × List Char
  | [] => ([], true, [])
  | c :: cs =>
    if c = '\n' then (['\n'], false, cs)
    else
      let r := ReadString cs
      (c :: r.1, r.2.1, r.2.2)

/-- The `for` loop of `main` that reads standard input (the case `*msgfile == "-"`).
`n` bounds the number of iterations, `fuel` bounds each call of `Send`, and
`calls` collects the arguments of the calls of `Send` made so far. -/
def main.stdinLoop (env : Env) (fuel : Nat) :
    Nat → List Char → Publisher → Trace → List String → Option (Outcome × List String)
  | 0, _, _, _, _ => none
  | n + 1, input, p, tr, calls =>
    let r := ReadString input
    let line : String := ⟨r.1⟩
    if r.2.1 then
      some (.ret { p := p, tr := tr, err := none }, calls)
    else if line ≠ "" ∧ line ≠ "\n" then
      let line : String := ⟨line.data.filter (· ≠ '\n')⟩
      match Send env fuel p tr line with
      | none => none
      | some (.panic t) => some (.panic t, calls ++ [line])
      | some (.ret s) => main.stdinLoop env fuel n r.2.2 s.p s.tr (calls ++ [line])
    else main.stdinLoop env fuel n r.2.2 p tr calls

/-- The stream mode of `main` on the whole content of standard input.  Every
iteration that does not end the loop consumes at least one character, so
`input.length + 1` iterations are never exhausted. -/
def main.stdin (env : Env) (fuel : Nat) (p : Publisher) (tr : Trace) (input : String) :
    Option (Outcome × List String) :=
  main.stdinLoop env fuel (input.length + 1) input.data p tr []

/-- The history an outcome ends with. -/
def Outcome.trace : Outcome → Trace
  | .ret r => r.tr
  | .panic t => t

/-- An event is either no session send, or a session send that carries the headers `H`. -/
def Event.sendsWith (H : Headers) : Event → Prop
  | .stompSend _ h _ => h = H
  | _ => True

/-- A world in which every external call succeeds; handles are numbered by the
length of the history. -/
def envUp : Env :=
  { username := "", password := "", hostname := some "box",
    dial := fun tr _ _ => .ok tr.length,
    stompConnect := fun tr _ _ => (some tr.length, none),
    stompSend := fun _ _ _ _ => none,
    stompDisconnect := fun _ _ _ => none,
    close := fun _ _ => none }

/-- A world whose broker is unreachable: every dial and every session send fails. -/
def envDown : Env :=
  { username := "", password := "", hostname := none,
    dial := fun _ _ _ => .error "connection refused",
    stompConnect := fun _ _ _ => (none, some "no connection"),
    stompSend := fun _ _ _ _ => some "broken pipe",
    stompDisconnect := fun _ _ _ => none,
    close := fun _ _ => none }

/-- A world whose first session send fails and in which everything after it succeeds. -/
def envFlaky : Env :=
  { username := "", password := "", hostname := some "box",
    dial := fun tr _ _ => .ok tr.length,
    stompConnect := fun tr _ _ => (some tr.length, none),
    stompSend := fun tr _ _ _ => if tr = [] then some "broken pipe" else none,
    stompDisconnect := fun _ _ _ => none,
    close := fun _ _ => none }

/-- A world in which every dial and every session negotiation succeeds and every
session send fails. -/
def envSendsFail : Env :=
  { username := "", password := "", hostname := some "box",
    dial := fun tr _ _ => .ok tr.length,
    stompConnect := fun tr _ _ => (some tr.length, none),
    stompSend := fun _ _ _ _ => some "broken pipe",
    stompDisconnect := fun _ _ _ => none,
    close := fun _ _ => none }

/-- The connection headers that `Connect` builds for the address `feederport`. -/
def connectHeaders (env : Env) (feederport : String) : Headers :=
  if env.username ≠ "" then
    ["host", feederport, "accept-version", "1.1", "login", env.username, "passcode", env.password]
  else ["host", feederport, "accept-version", "1.1"]

/-- The seven header pairs that one call of `SetMsgHeader` appends, with `h`
the hostname entry. -/
def publishPairs (to_ from_ via version format h : String) : Headers :=
  ["destination", to_, "username", from_, "version", via ++ " " ++ version, "format", format,
   "persistent", "true", "priority", "5", "hostname", h]

/-- In the words of the specification: call `Send` once for each message of the
list, in order, until the first `Send` that returns an error; return that error
(after the text "ERROR: SendFile: send failed: ") and make no further call, or
return nil when no `Send` returned an error.  `calls` collects the arguments of the calls. -/
def sendEachUntilError (env : Env) (fuel : Nat) :
    List String → Publisher → Trace → List String → Option (Outcome × List String)
  | [], p, tr, calls => some (.ret ⟨p, tr, none⟩, calls)
  | m :: ms, p, tr, calls =>
    match Send env fuel p tr m with
    | none => none
    | some (.panic t) => some (.panic t, calls ++ [m])
    | some (.ret r) =>
      if r.err.isSome then
        some (.ret ⟨r.p, r.tr, r.err.map ("ERROR: SendFile: send failed: " ++ ·)⟩, calls ++ [m])
      else sendEachUntilError env fuel ms r.p r.tr (calls ++ [m])

/-- The states a program can bring a new Publisher to by calling `SetMsgHeader`,
`Connect`, `Disconnect` and `Send` (calls that return), with any arguments, in
any order, together with the history of external calls made on the way. -/
inductive Reachable (env : Env) : Publisher → Trace → Prop where
  | init : Reachable env zero []
  | setMsgHeader {p : Publisher} {tr : Trace} (a b c d e : String) :
      Reachable env p tr → Reachable env (SetMsgHeader env p a b c d e) tr
  | connect {p : Publisher} {tr : Trace} (a b c : String) :
      Reachable env p tr → Reachable env (Connect env p tr a b c).p (Connect env p tr a b c).tr
  | disconnect {p : Publisher} {tr : Trace} (d : Ret) :
      Reachable env p tr → Disconnect env p tr = .ret d → Reachable env d.p d.tr
  | send {p : Publisher} {tr : Trace} (fuel : Nat) (m : String) (r : Ret) :
      Reachable env p tr → Send env fuel p tr m = some (.ret r) → Reachable env r.p r.tr

/-- The headers of the most recent session negotiation in a history, if there is one. -/
def lastConnectHeaders : Trace → Option Headers
  | [] => none
  | ev :: t =>
    match lastConnectHeaders t with
    | some h => some h
    | none =>
      match ev with
      | .stompConnect _ h => some h
      | _ => none

/-- The connection headers of a Publisher are those of the most recent session
negotiation; or there has been no negotiation and the Publisher is not connected. -/
def HeadersFromNegotiation (p : Publisher) (tr : Trace) : Prop :=
  lastConnectHeaders tr = some p.stompConnHeader ∨
    (lastConnectHeaders tr = none ∧ p.connected = false)

/-- The state after `Connect` with STOMP succeeded on a new Publisher. -/
def afterConnect : Ret := Connect envUp zero [] "tcp" "STOMP" "broker:61613"

/-- The state after `Connect` with STOMP succeeded on a new Publisher and a
second `Connect`, with the protocol "openwire", was rejected. -/
def afterRejectedConnect : Ret :=
  Connect envUp afterConnect.p afterConnect.tr "tcp" "openwire" "broker:61616"

/-- In the words of the specification for the stream mode: call `Send` once for
each message of the list, in order, whatever each `Send` returns, and end
without an error.  `calls` collects the arguments of the calls. -/
def sendEach (env : Env) (fuel : Nat) :
    List String → Publisher → Trace → List String → Option (Outcome × List String)
  | [], p, tr, calls => some (.ret ⟨p, tr, none⟩, calls)
  | m :: ms, p, tr, calls =>
    match Send env fuel p tr m with
    | none => none
    | some (.panic t) => some (.panic t, calls ++ [m])
    | some (.ret r) => sendEach env fuel ms r.p r.tr (calls ++ [m])

/-- A connected Publisher with its publish headers set and the cache ["c0", "c1"]. -/
def connectedPublisher : Publisher :=
  { transportConn := some 0, transportProtocol := "tcp", messageProtocol := "STOMP",
    stompConnHeader := ["host", "broker:61613", "accept-version", "1.1"], stompConn := some 1,
    stompMsgHeader := ["destination", "q"], stompMsgHeaderSet := true, connected := true,
    messageCache := ("c0", "c1"), MBSTarget := "broker:61613" }

/-- The history `t` continues the history `tr`, and every session send added
carries the headers `H`. -/
def Extends (H : Headers) (tr t : Trace) : Prop :=
  ∃ new, t = tr ++ new ∧ ∀ ev ∈ new, Event.sendsWith H ev

/-- The first two statements of the `else` branch of `Send`: the cache shift. -/
def shift (p : Publisher) (m : String) : Publisher :=
  { p with messageCache := (m, p.messageCache.1) }

/-- The reconnect inside `Send` after a failed session send of `m`, when
`Disconnect` returned `d`: `connected` is set to false and `Connect` is called
with the retained transport protocol, message protocol and `MBSTarget`. -/
def afterReconnect (env : Env) (p : Publisher) (m : String) (d : Ret) : Ret :=
  Connect env { shift p m with connected := false } d.tr
    p.transportProtocol p.messageProtocol p.MBSTarget

/-! # Theorems -/

/-! ## Connect and Disconnect: what they leave alone -/

theorem Extends.refl (H : Headers) (tr : Trace) : Extends H tr tr :=
  ⟨[], by simp, by simp⟩

theorem Extends.trans {H : Headers} {a b c : Trace} (h1 : Extends H a b) (h2 : Extends H b c) :
    Extends H a c := by
  obtain ⟨n1, rfl, k1⟩ := h1
  obtain ⟨n2, rfl, k2⟩ := h2
  refine ⟨n1 ++ n2, by simp, ?_⟩
  intro ev hev
  rcases List.mem_append.1 hev with h | h
  · exact k1 ev h
  · exact k2 ev h

theorem Extends.snoc {H : Headers} {a b : Trace} (h : Extends H a b) (ev : Event)
    (hev : Event.sendsWith H ev) : Extends H a (b ++ [ev]) :=
  h.trans ⟨[ev], rfl, by simpa using hev⟩

theorem Connect_frame (env : Env) (p : Publisher) (tr : Trace) (a b c : String) :
    (Connect env p tr a b c).p.stompMsgHeader = p.stompMsgHeader ∧
    (Connect env p tr a b c).p.stompMsgHeaderSet = p.stompMsgHeaderSet ∧
    (Connect env p tr a b c).p.messageCache = p.messageCache ∧
    (Connect env p tr a b c).p.MBSTarget = p.MBSTarget ∧
    (Connect env p tr a b c).p.transportProtocol = a ∧
    (Connect env p tr a b c).p.messageProtocol = b := by
  unfold Connect
  dsimp only
  split
  · simp
  · split
    · split <;> simp
    · simp

theorem Connect_trace (env : Env) (p : Publisher) (tr : Trace) (a b c : String) (H : Headers) :
    Extends H tr (Connect env p tr a b c).tr := by
  unfold Connect
  dsimp only
  split
  · exact (Extends.refl H tr).snoc _ (by simp [Event.sendsWith])
  · split
    · split
      · exact ((Extends.refl H tr).snoc _ (by simp [Event.sendsWith])).snoc _
          (by simp [Event.sendsWith])
      · exact ((Extends.refl H tr).snoc _ (by simp [Event.sendsWith])).snoc _
          (by simp [Event.sendsWith])
    · exact (Extends.refl H tr).snoc _ (by simp [Event.sendsWith])

theorem Disconnect_cases (env : Env) (p : Publisher) (tr : Trace) :
    (∃ t, Disconnect env p tr = .panic t) ∨
    (∃ t e, Disconnect env p tr = .ret { p := p, tr := t, err := e }) ∨
    (∃ t e, Disconnect env p tr = .ret { p := { p with connected := false }, tr := t, err := e }) := by
  unfold Disconnect
  by_cases hc : p.isConnected = true
  · by_cases hp : toLower p.messageProtocol = "stomp"
    · cases hs : p.stompConn with
      | none => simp [hc, hp]
      | some s =>
        cases hd : env.stompDisconnect tr s p.stompConnHeader with
        | some e => simp [hc, hp, hd]
        | none =>
          cases ht : p.transportConn with
          | none => simp [hc, hp, hd]
          | some c =>
            cases hk : env.close (tr ++ [Event.stompDisconnect s p.stompConnHeader]) c with
            | some e => simp [hc, hp, hd, hk]
            | none => simp [hc, hp, hd, hk]
    · simp [hc, hp]
  · simp [hc]

theorem Disconnect_frame (env : Env) (p : Publisher) (tr : Trace) (d : Ret)
    (h : Disconnect env p tr = .ret d) :
    ∃ b, d.p = { p with connected := b } := by
  rcases Disconnect_cases env p tr with ⟨t, k⟩ | ⟨t, e, k⟩ | ⟨t, e, k⟩
  · rw [k] at h; cases h
  · rw [k] at h; cases h; exact ⟨p.connected, rfl⟩
  · rw [k] at h; cases h; exact ⟨false, rfl⟩

theorem Disconnect_trace (env : Env) (p : Publisher) (tr : Trace) (H : Headers) :
    Extends H tr (Disconnect env p tr).trace := by
  have e1 : ∀ ev : Event, Event.sendsWith H ev → Extends H tr (tr ++ [ev]) :=
    fun ev hev => (Extends.refl H tr).snoc ev hev
  have e2 : ∀ ev1 ev2 : Event, Event.sendsWith H ev1 → Event.sendsWith H ev2 →
      Extends H tr (tr ++ [ev1] ++ [ev2]) :=
    fun ev1 ev2 h1 h2 => ((Extends.refl H tr).snoc ev1 h1).snoc ev2 h2
  unfold Disconnect
  by_cases hc : p.isConnected = true
  · by_cases hp : toLower p.messageProtocol = "stomp"
    · cases hs : p.stompConn with
      | none => simpa [hc, hp, Outcome.trace] using Extends.refl H tr
      | some s =>
        cases hd : env.stompDisconnect tr s p.stompConnHeader with
        | some e => simpa [hc, hp, hd, Outcome.trace] using e1 _ (by simp [Event.sendsWith])
        | none =>
          cases ht : p.transportConn with
          | none => simpa [hc, hp, hd, Outcome.trace] using e1 _ (by simp [Event.sendsWith])
          | some c =>
            cases hk : env.close (tr ++ [Event.stompDisconnect s p.stompConnHeader]) c with
            | some e =>
              simpa [hc, hp, hd, hk, Outcome.trace] using
                e2 (Event.stompDisconnect s p.stompConnHeader) (Event.close c)
                  (by simp [Event.sendsWith]) (by simp [Event.sendsWith])
            | none =>
              simpa [hc, hp, hd, hk, Outcome.trace] using
                e2 (Event.stompDisconnect s p.stompConnHeader) (Event.close c)
                  (by simp [Event.sendsWith]) (by simp [Event.sendsWith])
    · simpa [hc, hp, Outcome.trace] using Extends.refl H tr
  · simpa [hc, Outcome.trace] using Extends.refl H tr

/-! ## Send -/

theorem Send_not_connected (env : Env) (fuel : Nat) (p : Publisher) (tr : Trace) (m : String)
    (hc : p.connected = false) :
    Send env (fuel + 1) p tr m =
      some (.ret ⟨p, tr, some "ERROR: Send: send attempt to broker when not connected."⟩) := by
  rw [Send]
  simp [isConnected, hc]

theorem Send_header_not_set (env : Env) (fuel : Nat) (p : Publisher) (tr : Trace) (m : String)
    (hc : p.connected = true) (hh : p.stompMsgHeaderSet = false) :
    Send env (fuel + 1) p tr m =
      some (.ret ⟨p, tr, some "ERROR: Send: send attempt to broker with header not set."⟩) := by
  rw [Send]
  simp [isConnected, hc, hh]

theorem Send_nil_session (env : Env) (fuel : Nat) (p : Publisher) (tr : Trace) (m : String)
    (hc : p.connected = true) (hh : p.stompMsgHeaderSet = true) (hs : p.stompConn = none) :
    Send env (fuel + 1) p tr m = some (.panic tr) := by
  rw [Send]
  simp [isConnected, hc, hh, hs]

theorem Send_first_ok (env : Env) (fuel : Nat) (p : Publisher) (tr : Trace) (m : String) (s : Nat)
    (hc : p.connected = true) (hh : p.stompMsgHeaderSet = true) (hs : p.stompConn = some s)
    (hsend : env.stompSend tr s p.stompMsgHeader m = none) :
    Send env (fuel + 1) p tr m =
      some (.ret ⟨shift p m, tr ++ [Event.stompSend s p.stompMsgHeader m], none⟩) := by
  rw [Send]
  simp [isConnected, hc, hh, hs, hsend, shift]

theorem Send_disconnect_panic (env : Env) (fuel : Nat) (p : Publisher) (tr : Trace) (m : String)
    (s : Nat) (e : String) (t : Trace)
    (hc : p.connected = true) (hh : p.stompMsgHeaderSet = true) (hs : p.stompConn = some s)
    (hsend : env.stompSend tr s p.stompMsgHeader m = some e)
    (hd : Disconnect env (shift p m) (tr ++ [Event.stompSend s p.stompMsgHeader m]) = .panic t) :
    Send env (fuel + 1) p tr m = some (.panic t) := by
  obtain ⟨tc, tp, mp, sch, sc, smh, set, con, cache, tgt⟩ := p
  simp only at hc hh hs hsend
  subst hc hh hs
  simp only [shift] at hd
  rw [Send]
  simp [isConnected, hsend, hd]

theorem Send_retry (env : Env) (fuel : Nat) (p : Publisher) (tr : Trace) (m : String)
    (s : Nat) (e : String) (d : Ret)
    (hc : p.connected = true) (hh : p.stompMsgHeaderSet = true) (hs : p.stompConn = some s)
    (hsend : env.stompSend tr s p.stompMsgHeader m = some e)
    (hd : Disconnect env (shift p m) (tr ++ [Event.stompSend s p.stompMsgHeader m]) = .ret d) :
    Send env (fuel + 1) p tr m =
      match (afterReconnect env p m d).p.stompConn with
      | none => some (.panic (afterReconnect env p m d).tr)
      | some s2 =>
        Send env fuel (afterReconnect env p m d).p
          ((afterReconnect env p m d).tr ++
            [Event.stompSend s2 p.stompMsgHeader p.messageCache.1]) m := by
  obtain ⟨b, hb⟩ := Disconnect_frame env _ _ d hd
  have fr := Connect_frame env { shift p m with connected := false } d.tr
    p.transportProtocol p.messageProtocol p.MBSTarget
  obtain ⟨dp, dtr, derr⟩ := d
  obtain ⟨tc, tp, mp, sch, sc, smh, set, con, cache, tgt⟩ := p
  simp only at hc hh hs hsend
  subst hc hh hs
  simp only [shift] at hd hb fr
  subst hb
  rw [Send]
  simp only [isConnected, if_true, Bool.not_true, Bool.false_eq_true, if_false, hsend, hd,
    afterReconnect, shift, fr.1, fr.2.2.1]

theorem Send_trace (env : Env) : ∀ (fuel : Nat) (p : Publisher) (tr : Trace) (m : String)
    (out : Outcome), Send env fuel p tr m = some out → Extends p.stompMsgHeader tr out.trace := by
  intro fuel
  induction fuel with
  | zero => intro p tr m out h; simp [Send] at h
  | succ n ih =>
    intro p tr m out h
    cases hc : p.connected with
    | false =>
      rw [Send_not_connected env n p tr m hc] at h
      cases h
      exact Extends.refl _ _
    | true =>
      cases hh : p.stompMsgHeaderSet with
      | false =>
        rw [Send_header_not_set env n p tr m hc hh] at h
        cases h
        exact Extends.refl _ _
      | true =>
        cases hs : p.stompConn with
        | none =>
          rw [Send_nil_session env n p tr m hc hh hs] at h
          cases h
          exact Extends.refl _ _
        | some s =>
          have s1 : Extends p.stompMsgHeader tr (tr ++ [Event.stompSend s p.stompMsgHeader m]) :=
            (Extends.refl _ _).snoc _ (by simp [Event.sendsWith])
          cases hsend : env.stompSend tr s p.stompMsgHeader m with
          | none =>
            rw [Send_first_ok env n p tr m s hc hh hs hsend] at h
            cases h
            exact s1
          | some e =>
            have s2 := Disconnect_trace env (shift p m)
              (tr ++ [Event.stompSend s p.stompMsgHeader m]) p.stompMsgHeader
            cases hd : Disconnect env (shift p m)
                (tr ++ [Event.stompSend s p.stompMsgHeader m]) with
            | panic t =>
              rw [Send_disconnect_panic env n p tr m s e t hc hh hs hsend hd] at h
              cases h
              rw [hd] at s2
              exact s1.trans s2
            | ret d =>
              rw [Send_retry env n p tr m s e d hc hh hs hsend hd] at h
              rw [hd] at s2
              have s3 : Extends p.stompMsgHeader d.tr (afterReconnect env p m d).tr :=
                Connect_trace env _ _ _ _ _ _
              have fr := Connect_frame env { shift p m with connected := false } d.tr
                p.transportProtocol p.messageProtocol p.MBSTarget
              cases hr : (afterReconnect env p m d).p.stompConn with
              | none =>
                rw [hr] at h
                cases h
                exact (s1.trans s2).trans s3
              | some s2' =>
                rw [hr] at h
                have := ih _ _ _ _ h
                have e1 : (afterReconnect env p m d).p.stompMsgHeader = p.stompMsgHeader := fr.1
                rw [e1] at this
                exact (((s1.trans s2).trans s3).snoc _ (by simp [Event.sendsWith])).trans this

/-! ## Connect, case by case -/

theorem Connect_dial_error (env : Env) (p : Publisher) (tr : Trace) (a b c e : String)
    (hd : env.dial tr a c = .error e) :
    Connect env p tr a b c =
      ⟨{ p with transportProtocol := a, messageProtocol := b, transportConn := none },
        tr ++ [Event.dial a c], none⟩ := by
  unfold Connect
  simp [hd]

theorem Connect_unsupported (env : Env) (p : Publisher) (tr : Trace) (a b c : String) (conn : Nat)
    (hd : env.dial tr a c = .ok conn) (hp : toLower b ≠ "stomp") :
    Connect env p tr a b c =
      ⟨{ p with transportProtocol := a, messageProtocol := b, transportConn := some conn },
        tr ++ [Event.dial a c],
        some ("ERROR: Connect: message protocol [" ++ b ++ "]: not supported")⟩ := by
  unfold Connect
  simp [hd, hp]

theorem Connect_session_error (env : Env) (p : Publisher) (tr : Trace) (a b c : String)
    (conn : Nat) (sess : Option Nat) (e : String)
    (hd : env.dial tr a c = .ok conn) (hp : toLower b = "stomp")
    (hs : env.stompConnect (tr ++ [Event.dial a c]) conn (connectHeaders env c) = (sess, some e)) :
    Connect env p tr a b c =
      ⟨{ p with transportProtocol := a, messageProtocol := b, transportConn := some conn,
                stompConnHeader := connectHeaders env c, stompConn := sess },
        tr ++ [Event.dial a c, Event.stompConnect conn (connectHeaders env c)],
        some ("ERROR: Connect: failed to connect [" ++ a ++ "][" ++ b ++ "] on host: " ++ c
          ++ ", with ERROR: " ++ e)⟩ := by
  unfold Connect
  unfold connectHeaders at hs
  by_cases hu : env.username = "" <;> simp [hu] at hs <;>
    simp [hd, hp, hs, hu, connectHeaders]

theorem Connect_ok (env : Env) (p : Publisher) (tr : Trace) (a b c : String)
    (conn : Nat) (sess : Option Nat)
    (hd : env.dial tr a c = .ok conn) (hp : toLower b = "stomp")
    (hs : env.stompConnect (tr ++ [Event.dial a c]) conn (connectHeaders env c) = (sess, none)) :
    Connect env p tr a b c =
      ⟨{ p with transportProtocol := a, messageProtocol := b, transportConn := some conn,
                stompConnHeader := connectHeaders env c, stompConn := sess, connected := true },
        tr ++ [Event.dial a c, Event.stompConnect conn (connectHeaders env c)], none⟩ := by
  unfold Connect
  unfold connectHeaders at hs
  by_cases hu : env.username = "" <;> simp [hu] at hs <;>
    simp [hd, hp, hs, hu, connectHeaders]

/-! ## Send: the precondition errors and the first attempt -/

/-- C1: when the publish headers are not set or the Publisher is not connected,
`Send` returns the "header not set" error (connected, headers missing) or the
"not connected" error (not connected), with any bound of at least one pass, and
leaves both the Publisher and the history of external calls as they were: no
session send, no disconnect, no dial. -/
theorem Send_precondition_error (env : Env) (fuel : Nat) (p : Publisher) (tr : Trace)
    (message : String) (h : p.stompMsgHeaderSet = false ∨ p.connected = false) :
    Send env (fuel + 1) p tr message =
      some (.ret ⟨p, tr, some (if p.connected then
        "ERROR: Send: send attempt to broker with header not set."
        else "ERROR: Send: send attempt to broker when not connected.")⟩) := by
  cases hc : p.connected with
  | false => simpa using Send_not_connected env fuel p tr message hc
  | true =>
    rcases h with h | h
    · simpa using Send_header_not_set env fuel p tr message hc h
    · rw [hc] at h; cases h

theorem Send_precondition_error_witness :
    Send envUp 1 zero [] "hello" =
      some (.ret ⟨zero, [], some "ERROR: Send: send attempt to broker when not connected."⟩) :=
  Send_precondition_error envUp 0 zero [] "hello" (Or.inl rfl)

/-- C4: on a connected Publisher with headers set and cache [c0, c1], when the
session send of the message succeeds at the first attempt, `Send` returns nil,
the only external call it adds is one session send with the publish headers and
the message as body, the cache becomes [message, c0], and `connected` stays true. -/
theorem Send_first_attempt_succeeds (env : Env) (fuel : Nat) (p : Publisher) (tr : Trace)
    (message c0 c1 : String) (s : Nat)
    (hc : p.connected = true) (hh : p.stompMsgHeaderSet = true)
    (hcache : p.messageCache = (c0, c1)) (hs : p.stompConn = some s)
    (hsend : env.stompSend tr s p.stompMsgHeader message = none) :
    Send env (fuel + 1) p tr message =
      some (.ret ⟨{ p with messageCache := (message, c0) },
        tr ++ [Event.stompSend s p.stompMsgHeader message], none⟩) ∧
    ({ p with messageCache := (message, c0) } : Publisher).connected = true := by
  refine ⟨?_, hc⟩
  rw [Send_first_ok env fuel p tr message s hc hh hs hsend]
  simp [shift, hcache]

theorem Send_first_attempt_succeeds_witness :
    Send envUp 1 connectedPublisher [] "hello" =
      some (.ret ⟨{ connectedPublisher with messageCache := ("hello", "c0") },
        [Event.stompSend 1 ["destination", "q"] "hello"], none⟩) :=
  (Send_first_attempt_succeeds envUp 0 connectedPublisher [] "hello" "c0" "c1" 1
    rfl rfl rfl rfl rfl).1

/-! ## Send: the retry path -/

/-- What `Disconnect` adds to the history when it returns on a connected
Publisher whose session is `s`: the session disconnect, and after it the close
of the transport when the session disconnect succeeded. -/
theorem Disconnect_events (env : Env) (p : Publisher) (tr : Trace) (d : Ret)
    (hc : p.connected = true) (hp : toLower p.messageProtocol = "stomp")
    (h : Disconnect env p tr = .ret d) :
    ∃ s, p.stompConn = some s ∧
      (d.tr = tr ++ [Event.stompDisconnect s p.stompConnHeader] ∨
       ∃ c, p.transportConn = some c ∧
         d.tr = tr ++ [Event.stompDisconnect s p.stompConnHeader, Event.close c]) := by
  unfold Disconnect at h
  cases hs : p.stompConn with
  | none => simp [isConnected, hc, hp, hs] at h
  | some s =>
    refine ⟨s, rfl, ?_⟩
    cases hd : env.stompDisconnect tr s p.stompConnHeader with
    | some e =>
      simp [isConnected, hc, hp, hs, hd] at h
      left; rw [← h]
    | none =>
      cases ht : p.transportConn with
      | none => simp [isConnected, hc, hp, hs, hd, ht] at h
      | some c =>
        right
        refine ⟨c, rfl, ?_⟩
        cases hk : env.close (tr ++ [Event.stompDisconnect s p.stompConnHeader]) c with
        | some e => simp [isConnected, hc, hp, hs, hd, ht, hk] at h; rw [← h]
        | none => simp [isConnected, hc, hp, hs, hd, ht, hk] at h; rw [← h]

/-- C9: on a connected Publisher with headers set and cache [c0, c1], when the
first session send of the message fails, `Disconnect` returns (with or without
an error), the reconnect succeeds (the dial, the STOMP protocol name and the
session negotiation) and the session send of the message after it succeeds,
`Send` returns nil with any bound of at least two passes.  The external calls it
adds are, in order: the failed session send of the message; the calls of
`Disconnect` (the session disconnect, then the close of the transport if the
session disconnect succeeded); the dial with the retained transport protocol and
`MBSTarget`; the session negotiation with the connection headers for `MBSTarget`;
a session send whose body is c0; and a session send of the message.  The cache
ends as [message, message] and `connected` is true. -/
theorem Send_retry_after_reconnect (env : Env) (fuel : Nat) (p : Publisher) (tr : Trace)
    (message c0 c1 e : String) (s conn s2 : Nat) (d : Ret)
    (hc : p.connected = true) (hh : p.stompMsgHeaderSet = true)
    (hcache : p.messageCache = (c0, c1)) (hs : p.stompConn = some s)
    (hfail : env.stompSend tr s p.stompMsgHeader message = some e)
    (hd : Disconnect env { p with messageCache := (message, c0) }
      (tr ++ [Event.stompSend s p.stompMsgHeader message]) = .ret d)
    (hdial : env.dial d.tr p.transportProtocol p.MBSTarget = .ok conn)
    (hproto : toLower p.messageProtocol = "stomp")
    (hsess : env.stompConnect (d.tr ++ [Event.dial p.transportProtocol p.MBSTarget]) conn
      (connectHeaders env p.MBSTarget) = (some s2, none))
    (hlast : env.stompSend
      (d.tr ++ [Event.dial p.transportProtocol p.MBSTarget,
        Event.stompConnect conn (connectHeaders env p.MBSTarget),
        Event.stompSend s2 p.stompMsgHeader c0])
      s2 p.stompMsgHeader message = none) :
    Send env (fuel + 2) p tr message =
      some (.ret ⟨{ p with messageCache := (message, message), connected := true,
                           transportConn := some conn,
                           stompConnHeader := connectHeaders env p.MBSTarget,
                           stompConn := some s2 },
        d.tr ++ [Event.dial p.transportProtocol p.MBSTarget,
          Event.stompConnect conn (connectHeaders env p.MBSTarget),
          Event.stompSend s2 p.stompMsgHeader c0,
          Event.stompSend s2 p.stompMsgHeader message], none⟩) ∧
    (d.tr = tr ++ [Event.stompSend s p.stompMsgHeader message,
        Event.stompDisconnect s p.stompConnHeader] ∨
      ∃ c, p.transportConn = some c ∧
        d.tr = tr ++ [Event.stompSend s p.stompMsgHeader message,
          Event.stompDisconnect s p.stompConnHeader, Event.close c]) := by
  have hsh : shift p message = { p with messageCache := (message, c0) } := by
    simp [shift, hcache]
  constructor
  · have hd2 : Disconnect env (shift p message)
        (tr ++ [Event.stompSend s p.stompMsgHeader message]) = .ret d := by rw [hsh]; exact hd
    rw [Send_retry env (fuel + 1) p tr message s e d hc hh hs hfail hd2]
    have hr : afterReconnect env p message d =
        ⟨{ p with messageCache := (message, c0), connected := true,
                  transportConn := some conn,
                  stompConnHeader := connectHeaders env p.MBSTarget,
                  stompConn := some s2 },
          d.tr ++ [Event.dial p.transportProtocol p.MBSTarget,
            Event.stompConnect conn (connectHeaders env p.MBSTarget)], none⟩ := by
      unfold afterReconnect
      rw [hsh, Connect_ok env _ d.tr _ _ _ conn (some s2) hdial hproto hsess]
    rw [hr]
    have key := Send_first_ok env fuel
      ({ p with messageCache := (message, c0), connected := true, transportConn := some conn,
                stompConnHeader := connectHeaders env p.MBSTarget, stompConn := some s2 } : Publisher)
      (d.tr ++ [Event.dial p.transportProtocol p.MBSTarget,
        Event.stompConnect conn (connectHeaders env p.MBSTarget),
        Event.stompSend s2 p.stompMsgHeader c0]) message s2 rfl hh rfl hlast
    simpa [shift, hcache] using key
  · obtain ⟨s', hs', hev⟩ := Disconnect_events env
      ({ p with messageCache := (message, c0) } : Publisher) _ d hc hproto hd
    simp only at hs' hev
    rw [hs] at hs'
    cases hs'
    rcases hev with h | ⟨c, hc', h⟩
    · left; rw [h]; simp
    · right; exact ⟨c, hc', by rw [h]; simp⟩

theorem Send_retry_after_reconnect_witness :
    Send envFlaky 2 connectedPublisher [] "hello" =
      some (.ret ⟨{ connectedPublisher with messageCache := ("hello", "hello"),
                                            transportConn := some 3, stompConn := some 4 },
        [Event.stompSend 1 ["destination", "q"] "hello",
         Event.stompDisconnect 1 ["host", "broker:61613", "accept-version", "1.1"],
         Event.close 0,
         Event.dial "tcp" "broker:61613",
         Event.stompConnect 3 ["host", "broker:61613", "accept-version", "1.1"],
         Event.stompSend 4 ["destination", "q"] "c0",
         Event.stompSend 4 ["destination", "q"] "hello"], none⟩) :=
  (Send_retry_after_reconnect envFlaky 0 connectedPublisher [] "hello" "c0" "c1" "broken pipe"
    1 3 4
    ⟨{ connectedPublisher with messageCache := ("hello", "c0"), connected := false },
      [Event.stompSend 1 ["destination", "q"] "hello",
       Event.stompDisconnect 1 ["host", "broker:61613", "accept-version", "1.1"],
       Event.close 0], none⟩
    rfl rfl rfl rfl rfl (by decide) rfl (by decide) rfl rfl).1

/-- C10 (as the code behaves): on a connected Publisher with headers set and
cache [c0, c1], when the first session send of the message fails, `Disconnect`
returns, and the reconnect dial fails, `Send` returns to its caller with any
bound of at least two passes, after one retry round: it adds the failed session
send, the calls of `Disconnect`, one dial of `MBSTarget` and one session send of
c0 on the old session, and returns the "not connected" error; the cache is
[message, c0] and `connected` is false. -/
theorem Send_returns_when_reconnect_dial_fails (env : Env) (fuel : Nat) (p : Publisher)
    (tr : Trace) (message c0 c1 e e2 : String) (s : Nat) (d : Ret)
    (hc : p.connected = true) (hh : p.stompMsgHeaderSet = true)
    (hcache : p.messageCache = (c0, c1)) (hs : p.stompConn = some s)
    (hfail : env.stompSend tr s p.stompMsgHeader message = some e)
    (hd : Disconnect env { p with messageCache := (message, c0) }
      (tr ++ [Event.stompSend s p.stompMsgHeader message]) = .ret d)
    (hdial : env.dial d.tr p.transportProtocol p.MBSTarget = .error e2) :
    Send env (fuel + 2) p tr message =
      some (.ret ⟨{ p with messageCache := (message, c0), connected := false,
                           transportConn := none },
        d.tr ++ [Event.dial p.transportProtocol p.MBSTarget,
          Event.stompSend s p.stompMsgHeader c0],
        some "ERROR: Send: send attempt to broker when not connected."⟩) := by
  have hsh : shift p message = { p with messageCache := (message, c0) } := by
    simp [shift, hcache]
  have hd2 : Disconnect env (shift p message)
      (tr ++ [Event.stompSend s p.stompMsgHeader message]) = .ret d := by rw [hsh]; exact hd
  rw [Send_retry env (fuel + 1) p tr message s e d hc hh hs hfail hd2]
  have hr : afterReconnect env p message d =
      ⟨{ p with messageCache := (message, c0), connected := false, transportConn := none },
        d.tr ++ [Event.dial p.transportProtocol p.MBSTarget], none⟩ := by
    unfold afterReconnect
    rw [hsh, Connect_dial_error env _ d.tr _ _ _ e2 hdial]
  rw [hr]
  simp only [hs]
  rw [Send_not_connected env fuel _ _ message rfl]
  simp [hcache]

theorem Send_returns_when_reconnect_dial_fails_witness :
    Send envDown 2 connectedPublisher [] "hello" =
      some (.ret ⟨{ connectedPublisher with messageCache := ("hello", "c0"), connected := false,
                                            transportConn := none },
        [Event.stompSend 1 ["destination", "q"] "hello",
         Event.stompDisconnect 1 ["host", "broker:61613", "accept-version", "1.1"],
         Event.close 0,
         Event.dial "tcp" "broker:61613",
         Event.stompSend 1 ["destination", "q"] "c0"],
        some "ERROR: Send: send attempt to broker when not connected."⟩) :=
  Send_returns_when_reconnect_dial_fails envDown 0 connectedPublisher [] "hello" "c0" "c1"
    "broken pipe" "connection refused" 1
    ⟨{ connectedPublisher with messageCache := ("hello", "c0"), connected := false },
      [Event.stompSend 1 ["destination", "q"] "hello",
       Event.stompDisconnect 1 ["host", "broker:61613", "accept-version", "1.1"],
       Event.close 0], none⟩
    rfl rfl rfl rfl rfl (by decide) rfl

/-- C10, the claim as stated fails: with an unreachable broker (every dial and
every session send fails) `Send` on a connected Publisher with its headers set
returns after two passes, with the "not connected" error. -/
theorem Send_unreachable_broker_returns :
    (∀ tr a c, envDown.dial tr a c = .error "connection refused") ∧
    (∀ tr s h b, envDown.stompSend tr s h b = some "broken pipe") ∧
    connectedPublisher.connected = true ∧ connectedPublisher.stompMsgHeaderSet = true ∧
    Send envDown 2 connectedPublisher [] "hello" =
      some (.ret ⟨{ connectedPublisher with messageCache := ("hello", "c0"), connected := false,
                                            transportConn := none },
        [Event.stompSend 1 ["destination", "q"] "hello",
         Event.stompDisconnect 1 ["host", "broker:61613", "accept-version", "1.1"],
         Event.close 0,
         Event.dial "tcp" "broker:61613",
         Event.stompSend 1 ["destination", "q"] "c0"],
        some "ERROR: Send: send attempt to broker when not connected."⟩) :=
  ⟨fun _ _ _ => rfl, fun _ _ _ _ => rfl, rfl, rfl, by decide⟩

/-! ## Connect: the returned error and the retained address -/

/-- C2, the code at the failing input: with an unreachable broker `Connect`
returns nil, not an error.  `connected` stays false, and a following `Send`
returns the "not connected" error. -/
theorem Connect_dial_failure_returns_nil :
    (Connect envDown zero [] "tcp" "STOMP" "broker:61613").err = none ∧
    (Connect envDown zero [] "tcp" "STOMP" "broker:61613").p.connected = false ∧
    (Connect envDown zero [] "tcp" "STOMP" "broker:61613").tr = [Event.dial "tcp" "broker:61613"] ∧
    Send envDown 1 (Connect envDown zero [] "tcp" "STOMP" "broker:61613").p
        (Connect envDown zero [] "tcp" "STOMP" "broker:61613").tr "hello" =
      some (.ret ⟨(Connect envDown zero [] "tcp" "STOMP" "broker:61613").p,
        [Event.dial "tcp" "broker:61613"],
        some "ERROR: Send: send attempt to broker when not connected."⟩) := by
  decide

/-- C3, the code at the failing input: `Connect` never assigns `MBSTarget`, so
`GetActivePublisher` returns after any `Connect` what it returned before; after
a fully successful `Connect` to "host:3333" on a new Publisher, `connected` is
true and `GetActivePublisher` returns the empty string. -/
theorem GetActivePublisher_ignores_Connect :
    (∀ (env : Env) (p : Publisher) (tr : Trace) (a b c : String),
      GetActivePublisher (Connect env p tr a b c).p = GetActivePublisher p) ∧
    (Connect envUp zero [] "tcp" "STOMP" "host:3333").err = none ∧
    (Connect envUp zero [] "tcp" "STOMP" "host:3333").p.connected = true ∧
    GetActivePublisher (Connect envUp zero [] "tcp" "STOMP" "host:3333").p = "" := by
  refine ⟨fun env p tr a b c => (Connect_frame env p tr a b c).2.2.2.1, ?_, ?_, ?_⟩ <;> decide

/-! ## SetMsgHeader -/

theorem Send_headers_kept (env : Env) : ∀ (fuel : Nat) (p : Publisher) (tr : Trace) (m : String)
    (r : Ret), Send env fuel p tr m = some (.ret r) →
    r.p.stompMsgHeader = p.stompMsgHeader ∧ r.p.stompMsgHeaderSet = p.stompMsgHeaderSet ∧
    r.p.MBSTarget = p.MBSTarget := by
  intro fuel
  induction fuel with
  | zero => intro p tr m r h; simp [Send] at h
  | succ n ih =>
    intro p tr m r h
    cases hc : p.connected with
    | false =>
      rw [Send_not_connected env n p tr m hc] at h
      cases h
      exact ⟨rfl, rfl, rfl⟩
    | true =>
      cases hh : p.stompMsgHeaderSet with
      | false =>
        rw [Send_header_not_set env n p tr m hc hh] at h
        cases h
        exact ⟨rfl, hh, rfl⟩
      | true =>
        cases hs : p.stompConn with
        | none =>
          rw [Send_nil_session env n p tr m hc hh hs] at h
          cases h
        | some s =>
          cases hsend : env.stompSend tr s p.stompMsgHeader m with
          | none =>
            rw [Send_first_ok env n p tr m s hc hh hs hsend] at h
            cases h
            exact ⟨rfl, hh, rfl⟩
          | some e =>
            cases hd : Disconnect env (shift p m)
                (tr ++ [Event.stompSend s p.stompMsgHeader m]) with
            | panic t =>
              rw [Send_disconnect_panic env n p tr m s e t hc hh hs hsend hd] at h
              cases h
            | ret d =>
              rw [Send_retry env n p tr m s e d hc hh hs hsend hd] at h
              have fr := Connect_frame env { shift p m with connected := false } d.tr
                p.transportProtocol p.messageProtocol p.MBSTarget
              cases hr : (afterReconnect env p m d).p.stompConn with
              | none =>
                rw [hr] at h
                cases h
              | some s2 =>
                rw [hr] at h
                have k := ih _ _ _ _ h
                have e1 : (afterReconnect env p m d).p.stompMsgHeader = p.stompMsgHeader := fr.1
                have e2 : (afterReconnect env p m d).p.stompMsgHeaderSet = p.stompMsgHeaderSet :=
                  fr.2.1
                have e3 : (afterReconnect env p m d).p.MBSTarget = p.MBSTarget := fr.2.2.2.1
                rw [e1, e2, e3, hh] at k
                exact k

theorem SetMsgHeader_eq (env : Env) (q : Publisher) (a b c d e : String) :
    SetMsgHeader env q a b c d e =
      { q with stompMsgHeader := q.stompMsgHeader ++
                 publishPairs a b c d e (env.hostname.getD "unknown"),
               stompMsgHeaderSet := true } := by
  unfold SetMsgHeader publishPairs
  cases env.hostname <;> simp

/-- C6: `SetMsgHeader` appends to the publish headers exactly the seven pairs
destination, username, version (via, a blank, version), format, persistent
"true", priority "5" and hostname (the local name, or "unknown" when the lookup
fails), in this order, sets `stompMsgHeaderSet` and changes no other field.  On
a new Publisher the headers are then exactly these seven pairs; a second call
appends a second copy after the first; `Connect` and `Send` keep the headers,
and every session send that a later `Send` makes carries exactly them. -/
theorem SetMsgHeader_appends_seven_pairs (env : Env) (p : Publisher)
    (to_ from_ via version format : String) :
    SetMsgHeader env p to_ from_ via version format =
      { p with stompMsgHeader := p.stompMsgHeader ++
                 publishPairs to_ from_ via version format (env.hostname.getD "unknown"),
               stompMsgHeaderSet := true } ∧
    (SetMsgHeader env zero to_ from_ via version format).stompMsgHeader =
      ["destination", to_, "username", from_, "version", via ++ " " ++ version,
       "format", format, "persistent", "true", "priority", "5",
       "hostname", env.hostname.getD "unknown"] ∧
    (∀ a b c d e : String,
      (SetMsgHeader env (SetMsgHeader env p to_ from_ via version format) a b c d e).stompMsgHeader =
        p.stompMsgHeader ++
          publishPairs to_ from_ via version format (env.hostname.getD "unknown") ++
          publishPairs a b c d e (env.hostname.getD "unknown")) ∧
    (∀ (q : Publisher) (tr : Trace) (a b c : String),
      (Connect env q tr a b c).p.stompMsgHeader = q.stompMsgHeader) ∧
    (∀ (fuel : Nat) (q : Publisher) (tr : Trace) (m : String) (out : Outcome),
      Send env fuel q tr m = some out →
        (∃ new, out.trace = tr ++ new ∧
          ∀ s h body, Event.stompSend s h body ∈ new → h = q.stompMsgHeader) ∧
        ∀ r, out = .ret r → r.p.stompMsgHeader = q.stompMsgHeader) := by
  have key := SetMsgHeader_eq env
  refine ⟨key p _ _ _ _ _, ?_, ?_, ?_, ?_⟩
  · rw [key]; simp [zero, publishPairs]
  · intro a b c d e
    rw [key, key]
  · intro q tr a b c
    exact (Connect_frame env q tr a b c).1
  · intro fuel q tr m out h
    constructor
    · obtain ⟨new, h1, h2⟩ := Send_trace env fuel q tr m out h
      refine ⟨new, h1, ?_⟩
      intro s hd body hmem
      exact h2 _ hmem
    · intro r hr
      subst hr
      exact (Send_headers_kept env fuel q tr m r h).1

/-! ## The bulk senders -/

theorem SendFile_loop_eq (env : Env) (fuel : Nat) : ∀ (lines : List String) (p : Publisher)
    (tr : Trace) (calls : List String),
    SendFile.loop env fuel lines p tr calls =
      sendEachUntilError env fuel (lines.filter (· ≠ "")) p tr calls := by
  intro lines
  induction lines with
  | nil => intro p tr calls; rfl
  | cons line rest ih =>
    intro p tr calls
    by_cases hl : line = ""
    · simp [SendFile.loop, hl, ih]
    · rw [SendFile.loop, List.filter_cons_of_pos (by simpa using hl), sendEachUntilError]
      simp only [hl, ne_eq, not_false_eq_true, if_true]
      cases hsend : Send env fuel p tr line with
      | none => rfl
      | some out =>
        cases out with
        | panic t => rfl
        | ret r =>
          obtain ⟨rp, rtr, rerr⟩ := r
          cases rerr with
          | none => simp [ih]
          | some e => simp

theorem sendEachUntilError_calls (env : Env) (fuel : Nat) : ∀ (msgs : List String)
    (p : Publisher) (tr : Trace) (calls : List String) (out : Outcome) (cs : List String),
    sendEachUntilError env fuel msgs p tr calls = some (out, cs) →
    ∃ k, k ≤ msgs.length ∧ cs = calls ++ msgs.take k ∧
      (∀ r, out = .ret r → r.err = none → k = msgs.length) := by
  intro msgs
  induction msgs with
  | nil =>
    intro p tr calls out cs h
    simp only [sendEachUntilError, Option.some.injEq, Prod.mk.injEq] at h
    exact ⟨0, Nat.le_refl _, by simp [h.2], fun _ _ _ => rfl⟩
  | cons m ms ih =>
    intro p tr calls out cs h
    rw [sendEachUntilError] at h
    cases hsend : Send env fuel p tr m with
    | none => simp [hsend] at h
    | some o =>
      cases o with
      | panic t =>
        simp only [hsend, Option.some.injEq, Prod.mk.injEq] at h
        refine ⟨1, by simp, by simp [h.2], ?_⟩
        intro r hr
        rw [← h.1] at hr
        cases hr
      | ret r =>
        simp only [hsend] at h
        cases he : r.err with
        | some e =>
          simp only [he, Option.isSome_some, if_true, Option.map_some', Option.some.injEq,
            Prod.mk.injEq] at h
          refine ⟨1, by simp, by simp [h.2], ?_⟩
          intro r2 hr herr
          rw [← h.1] at hr
          cases hr
          cases herr
        | none =>
          simp only [he, Option.isSome_none, Bool.false_eq_true, if_false] at h
          obtain ⟨k, hk, hcs, hall⟩ := ih _ _ _ _ _ h
          refine ⟨k + 1, by simp [hk], by simp [hcs], ?_⟩
          intro r2 hr herr
          simp [hall r2 hr herr]

/-- C5: for every file content, `SendFile` does exactly what "call `Send` once
for each non-empty piece of the content split on the newline, in file order,
until the first `Send` that returns an error; then return an error and send
nothing more; return nil when no `Send` fails" does: the same result, the same
external calls and the same sequence of `Send` calls.  For the content with the
lines "a", "", "b", "" the non-empty pieces are "a" and "b", and with sends that
succeed `SendFile` calls `Send` exactly with "a", then "b", and returns nil;
with sends that fail it stops after the call with "a" and returns an error.
Whenever `SendFile` ends, the calls of `Send` it made are the first k non-empty
pieces for some k, and all of them when it returns nil. -/
theorem SendFile_sends_nonempty_lines_until_error :
    (∀ (env : Env) (fuel : Nat) (p : Publisher) (tr : Trace) (content : String),
      SendFile env fuel p tr (.ok content) =
        sendEachUntilError env fuel ((Split content).filter (· ≠ "")) p tr []) ∧
    (∀ (env : Env) (fuel : Nat) (p : Publisher) (tr : Trace) (content : String)
      (out : Outcome) (cs : List String),
      SendFile env fuel p tr (.ok content) = some (out, cs) →
        ∃ k, k ≤ ((Split content).filter (· ≠ "")).length ∧
          cs = ((Split content).filter (· ≠ "")).take k ∧
          (∀ r, out = .ret r → r.err = none → cs = (Split content).filter (· ≠ ""))) ∧
    (Split "a\n\nb\n").filter (· ≠ "") = ["a", "b"] ∧
    SendFile envUp 1 connectedPublisher [] (.ok "a\n\nb\n") =
      some (.ret ⟨{ connectedPublisher with messageCache := ("b", "a") },
        [Event.stompSend 1 ["destination", "q"] "a", Event.stompSend 1 ["destination", "q"] "b"],
        none⟩, ["a", "b"]) ∧
    SendFile envDown 2 connectedPublisher [] (.ok "a\n\nb\n") =
      some (.ret ⟨{ connectedPublisher with messageCache := ("a", "c0"), connected := false,
                                            transportConn := none },
        [Event.stompSend 1 ["destination", "q"] "a",
         Event.stompDisconnect 1 ["host", "broker:61613", "accept-version", "1.1"],
         Event.close 0,
         Event.dial "tcp" "broker:61613",
         Event.stompSend 1 ["destination", "q"] "c0"],
        some ("ERROR: SendFile: send failed: " ++
          "ERROR: Send: send attempt to broker when not connected.")⟩, ["a"]) := by
  refine ⟨?_, ?_, by decide, by decide, by decide⟩
  · intro env fuel p tr content
    exact SendFile_loop_eq env fuel (Split content) p tr []
  · intro env fuel p tr content out cs h
    have h2 : sendEachUntilError env fuel ((Split content).filter (· ≠ "")) p tr [] =
        some (out, cs) := by
      rw [← h]
      exact (SendFile_loop_eq env fuel (Split content) p tr []).symm
    obtain ⟨k, hk, hcs, hall⟩ := sendEachUntilError_calls env fuel _ p tr [] out cs h2
    refine ⟨k, hk, by simpa using hcs, ?_⟩
    intro r hr herr
    rw [hcs, hall r hr herr]
    simp

/-- C8, the code at the failing input: on the input "a", newline, "b" (the last
line has no newline after it) the stream mode calls `Send` with "a" only and
ends; the line "b" is never sent.  `SendFile` on the same content sends "a" and
then "b". -/
theorem stdin_drops_unterminated_last_line :
    (Split "a\nb").filter (· ≠ "") = ["a", "b"] ∧
    main.stdin envUp 1 connectedPublisher [] "a\nb" =
      some (.ret ⟨{ connectedPublisher with messageCache := ("a", "c0") },
        [Event.stompSend 1 ["destination", "q"] "a"], none⟩, ["a"]) ∧
    SendFile envUp 1 connectedPublisher [] (.ok "a\nb") =
      some (.ret ⟨{ connectedPublisher with messageCache := ("b", "a") },
        [Event.stompSend 1 ["destination", "q"] "a", Event.stompSend 1 ["destination", "q"] "b"],
        none⟩, ["a", "b"]) := by
  refine ⟨by decide, by decide, by decide⟩

/-! ## Disconnect on reachable states -/

theorem lastConnectHeaders_snoc (tr : Trace) (ev : Event) :
    lastConnectHeaders (tr ++ [ev]) =
      match ev with
      | .stompConnect _ h => some h
      | _ => lastConnectHeaders tr := by
  induction tr with
  | nil => cases ev <;> rfl
  | cons x t ih =>
    cases ev <;> simp_all [lastConnectHeaders]

theorem HeadersFromNegotiation_Connect (env : Env) (p : Publisher) (tr : Trace) (a b c : String)
    (h : HeadersFromNegotiation p tr) :
    HeadersFromNegotiation (Connect env p tr a b c).p (Connect env p tr a b c).tr := by
  cases hd : env.dial tr a c with
  | error e =>
    rw [Connect_dial_error env p tr a b c e hd]
    simpa [HeadersFromNegotiation, lastConnectHeaders_snoc] using h
  | ok conn =>
    by_cases hp : toLower b = "stomp"
    · rcases hs : env.stompConnect (tr ++ [Event.dial a c]) conn (connectHeaders env c) with
        ⟨sess, err⟩
      cases err with
      | none =>
        rw [Connect_ok env p tr a b c conn sess hd hp hs]
        left
        rw [show tr ++ [Event.dial a c, Event.stompConnect conn (connectHeaders env c)] =
          (tr ++ [Event.dial a c]) ++ [Event.stompConnect conn (connectHeaders env c)] by simp]
        rw [lastConnectHeaders_snoc]
      | some e =>
        rw [Connect_session_error env p tr a b c conn sess e hd hp hs]
        left
        rw [show tr ++ [Event.dial a c, Event.stompConnect conn (connectHeaders env c)] =
          (tr ++ [Event.dial a c]) ++ [Event.stompConnect conn (connectHeaders env c)] by simp]
        rw [lastConnectHeaders_snoc]
    · rw [Connect_unsupported env p tr a b c conn hd hp]
      simpa [HeadersFromNegotiation, lastConnectHeaders_snoc] using h

theorem Disconnect_trace_cases (env : Env) (p : Publisher) (tr : Trace) :
    (Disconnect env p tr).trace = tr ∨
    (∃ s h, (Disconnect env p tr).trace = tr ++ [Event.stompDisconnect s h]) ∨
    (∃ s h c, (Disconnect env p tr).trace = (tr ++ [Event.stompDisconnect s h]) ++ [Event.close c]) := by
  unfold Disconnect
  by_cases hc : p.isConnected = true
  · by_cases hp : toLower p.messageProtocol = "stomp"
    · cases hs : p.stompConn with
      | none => simp [hc, hp, Outcome.trace]
      | some s =>
        cases hd : env.stompDisconnect tr s p.stompConnHeader with
        | some e => simp [hc, hp, hd, Outcome.trace]
        | none =>
          cases ht : p.transportConn with
          | none => simp [hc, hp, hd, Outcome.trace]
          | some c =>
            cases hk : env.close (tr ++ [Event.stompDisconnect s p.stompConnHeader]) c with
            | some e => simp [hc, hp, hd, hk, Outcome.trace]
            | none => simp [hc, hp, hd, hk, Outcome.trace]
    · simp [hc, hp, Outcome.trace]
  · simp [hc, Outcome.trace]

theorem Disconnect_lastConnectHeaders (env : Env) (p : Publisher) (tr : Trace) :
    lastConnectHeaders (Disconnect env p tr).trace = lastConnectHeaders tr := by
  rcases Disconnect_trace_cases env p tr with h | ⟨s, hh, h⟩ | ⟨s, hh, c, h⟩
  · rw [h]
  · rw [h, lastConnectHeaders_snoc]
  · rw [h, lastConnectHeaders_snoc, lastConnectHeaders_snoc]

theorem HeadersFromNegotiation_Disconnect (env : Env) (p : Publisher) (tr : Trace) (d : Ret)
    (hd : Disconnect env p tr = .ret d) (h : HeadersFromNegotiation p tr) :
    HeadersFromNegotiation d.p d.tr ∧
    HeadersFromNegotiation { p with connected := false } d.tr := by
  have hl := Disconnect_lastConnectHeaders env p tr
  rw [hd] at hl
  simp only [Outcome.trace] at hl
  have hoff : HeadersFromNegotiation { p with connected := false } d.tr := by
    rcases h with h | ⟨h, _⟩
    · left; rw [hl]; exact h
    · right; rw [hl]; exact ⟨h, rfl⟩
  refine ⟨?_, hoff⟩
  rcases Disconnect_cases env p tr with ⟨t, k⟩ | ⟨t, e, k⟩ | ⟨t, e, k⟩
  · rw [k] at hd; cases hd
  · rw [k] at hd; cases hd
    rcases h with h | ⟨h, hc⟩
    · left; rw [hl]; exact h
    · right; rw [hl]; exact ⟨h, hc⟩
  · rw [k] at hd; cases hd
    exact hoff

theorem HeadersFromNegotiation_Send (env : Env) : ∀ (fuel : Nat) (p : Publisher) (tr : Trace)
    (m : String) (r : Ret), Send env fuel p tr m = some (.ret r) →
    HeadersFromNegotiation p tr → HeadersFromNegotiation r.p r.tr := by
  intro fuel
  induction fuel with
  | zero => intro p tr m r h; simp [Send] at h
  | succ n ih =>
    intro p tr m r h hinv
    cases hc : p.connected with
    | false =>
      rw [Send_not_connected env n p tr m hc] at h
      cases h
      exact hinv
    | true =>
      cases hh : p.stompMsgHeaderSet with
      | false =>
        rw [Send_header_not_set env n p tr m hc hh] at h
        cases h
        exact hinv
      | true =>
        cases hs : p.stompConn with
        | none =>
          rw [Send_nil_session env n p tr m hc hh hs] at h
          cases h
        | some s =>
          have hinv1 : HeadersFromNegotiation (shift p m)
              (tr ++ [Event.stompSend s p.stompMsgHeader m]) := by
            simpa [HeadersFromNegotiation, lastConnectHeaders_snoc, shift] using hinv
          cases hsend : env.stompSend tr s p.stompMsgHeader m with
          | none =>
            rw [Send_first_ok env n p tr m s hc hh hs hsend] at h
            cases h
            exact hinv1
          | some e =>
            cases hd : Disconnect env (shift p m)
                (tr ++ [Event.stompSend s p.stompMsgHeader m]) with
            | panic t =>
              rw [Send_disconnect_panic env n p tr m s e t hc hh hs hsend hd] at h
              cases h
            | ret d =>
              rw [Send_retry env n p tr m s e d hc hh hs hsend hd] at h
              have hinv2 := (HeadersFromNegotiation_Disconnect env _ _ d hd hinv1).2
              have hinv3 : HeadersFromNegotiation (afterReconnect env p m d).p
                  (afterReconnect env p m d).tr :=
                HeadersFromNegotiation_Connect env _ _ _ _ _ hinv2
              cases hr : (afterReconnect env p m d).p.stompConn with
              | none =>
                rw [hr] at h
                cases h
              | some s2 =>
                rw [hr] at h
                refine ih _ _ _ _ h ?_
                simpa [HeadersFromNegotiation, lastConnectHeaders_snoc] using hinv3

theorem Reachable_headers (env : Env) (p : Publisher) (tr : Trace) (h : Reachable env p tr) :
    HeadersFromNegotiation p tr := by
  induction h with
  | init => right; exact ⟨rfl, rfl⟩
  | setMsgHeader a b c d e _ ih =>
    rw [SetMsgHeader_eq]
    exact ih
  | connect a b c _ ih => exact HeadersFromNegotiation_Connect env _ _ a b c ih
  | disconnect d _ hd ih => exact (HeadersFromNegotiation_Disconnect env _ _ d hd ih).1
  | send fuel m r _ hs ih => exact HeadersFromNegotiation_Send env fuel _ _ m r hs ih

/-- On a connected Publisher whose retained message protocol is not the STOMP
name, `Disconnect` takes the empty `default` branch: it makes no external call,
sets `connected` to false and returns nil. -/
theorem Disconnect_other_protocol (env : Env) (p : Publisher) (tr : Trace)
    (hc : p.connected = true) (hp : toLower p.messageProtocol ≠ "stomp") :
    Disconnect env p tr = .ret ⟨{ p with connected := false }, tr, none⟩ := by
  unfold Disconnect
  simp [isConnected, hc, hp]

theorem Disconnect_other_protocol_witness :
    Disconnect envUp afterRejectedConnect.p afterRejectedConnect.tr =
      .ret ⟨{ afterRejectedConnect.p with connected := false }, afterRejectedConnect.tr, none⟩ :=
  Disconnect_other_protocol envUp afterRejectedConnect.p afterRejectedConnect.tr
    (by decide) (by decide)

/-- C7 (as the code behaves): on every state reachable through `SetMsgHeader`,
`Connect`, `Send` and `Disconnect`: when `connected` is false, `Disconnect`
returns the "not connected" error and makes no external call; when `connected`
is true, the retained message protocol is the STOMP name (case-insensitively)
and `Disconnect` returns nil, it has made exactly two external calls, first the
session disconnect on the retained session with the retained connection
headers, which are the headers of the most recent session negotiation, then the
close of the retained transport, and `connected` is false after it. -/
theorem Disconnect_on_reachable (env : Env) (p : Publisher) (tr : Trace)
    (hr : Reachable env p tr) :
    (p.connected = false →
      Disconnect env p tr =
        .ret ⟨p, tr, some "ERROR: Disconnect: disconnect attempt when not connected"⟩) ∧
    (p.connected = true → toLower p.messageProtocol = "stomp" →
      ∀ d, Disconnect env p tr = .ret d → d.err = none →
        ∃ s c, p.stompConn = some s ∧ p.transportConn = some c ∧
          lastConnectHeaders tr = some p.stompConnHeader ∧
          d.tr = tr ++ [Event.stompDisconnect s p.stompConnHeader, Event.close c] ∧
          d.p = { p with connected := false }) := by
  refine ⟨?_, ?_⟩
  · intro hc
    unfold Disconnect
    simp [isConnected, hc]
  · intro hc hp d hd he
    have hinv := Reachable_headers env p tr hr
    have hlast : lastConnectHeaders tr = some p.stompConnHeader := by
      rcases hinv with h | ⟨_, h⟩
      · exact h
      · rw [hc] at h; cases h
    unfold Disconnect at hd
    cases hs : p.stompConn with
    | none => simp [isConnected, hc, hp, hs] at hd
    | some s =>
      cases hdis : env.stompDisconnect tr s p.stompConnHeader with
      | some e =>
        simp [isConnected, hc, hp, hs, hdis] at hd
        rw [← hd] at he
        cases he
      | none =>
        cases ht : p.transportConn with
        | none => simp [isConnected, hc, hp, hs, hdis, ht] at hd
        | some c =>
          cases hk : env.close (tr ++ [Event.stompDisconnect s p.stompConnHeader]) c with
          | some e =>
            simp [isConnected, hc, hp, hs, hdis, ht, hk] at hd
            rw [← hd] at he
            cases he
          | none =>
            simp [isConnected, hc, hp, hs, hdis, ht, hk] at hd
            refine ⟨s, c, rfl, rfl, hlast, ?_, ?_⟩
            · rw [← hd]
            · rw [← hd]

theorem Disconnect_on_reachable_witness :
    ∃ s c, afterConnect.p.stompConn = some s ∧ afterConnect.p.transportConn = some c ∧
      lastConnectHeaders afterConnect.tr = some afterConnect.p.stompConnHeader ∧
      ([Event.dial "tcp" "broker:61613",
        Event.stompConnect 0 ["host", "broker:61613", "accept-version", "1.1"],
        Event.stompDisconnect 1 ["host", "broker:61613", "accept-version", "1.1"],
        Event.close 0] : Trace) =
        afterConnect.tr ++ [Event.stompDisconnect s afterConnect.p.stompConnHeader, Event.close c] ∧
      { afterConnect.p with connected := false } = { afterConnect.p with connected := false } :=
  (Disconnect_on_reachable envUp afterConnect.p afterConnect.tr
    (Reachable.connect "tcp" "STOMP" "broker:61613" Reachable.init)).2
    (by decide) (by decide)
    ⟨{ afterConnect.p with connected := false },
      [Event.dial "tcp" "broker:61613",
       Event.stompConnect 0 ["host", "broker:61613", "accept-version", "1.1"],
       Event.stompDisconnect 1 ["host", "broker:61613", "accept-version", "1.1"],
       Event.close 0], none⟩
    (by decide) rfl

/-- C7, the claim as stated fails: the state after a successful `Connect` with
STOMP and a second `Connect` rejected for its protocol "openwire" is reachable
and has `connected` true; `Disconnect` on it returns nil and sets `connected` to
false, and the history is unchanged: no session disconnect, no transport close. -/
theorem Disconnect_closes_nothing_after_rejected_Connect :
    Reachable envUp afterRejectedConnect.p afterRejectedConnect.tr ∧
    afterRejectedConnect.err =
      some "ERROR: Connect: message protocol [openwire]: not supported" ∧
    afterRejectedConnect.p.connected = true ∧
    afterRejectedConnect.tr =
      [Event.dial "tcp" "broker:61613",
       Event.stompConnect 0 ["host", "broker:61613", "accept-version", "1.1"],
       Event.dial "tcp" "broker:61616"] ∧
    Disconnect envUp afterRejectedConnect.p afterRejectedConnect.tr =
      .ret ⟨{ afterRejectedConnect.p with connected := false },
        [Event.dial "tcp" "broker:61613",
         Event.stompConnect 0 ["host", "broker:61613", "accept-version", "1.1"],
         Event.dial "tcp" "broker:61616"], none⟩ :=
  ⟨Reachable.connect "tcp" "openwire" "broker:61616"
      (Reachable.connect "tcp" "STOMP" "broker:61613" Reachable.init),
    by decide, by decide, by decide, by decide⟩

/-! ## Connect: when it connects and when it returns an error -/

/-- On a Publisher that is not connected, `Connect` leaves `connected` true
exactly when the dial succeeded, the protocol name is "stomp" up to case, and
the session negotiation returned no error. -/
theorem Connect_connected_iff (env : Env) (p : Publisher) (tr : Trace) (a b c : String)
    (hc : p.connected = false) :
    (Connect env p tr a b c).p.connected = true ↔
      ∃ conn sess, env.dial tr a c = .ok conn ∧ toLower b = "stomp" ∧
        env.stompConnect (tr ++ [Event.dial a c]) conn (connectHeaders env c) = (sess, none) := by
  cases hd : env.dial tr a c with
  | error e =>
    rw [Connect_dial_error env p tr a b c e hd]
    simp [hc]
  | ok conn =>
    by_cases hp : toLower b = "stomp"
    · rcases hs : env.stompConnect (tr ++ [Event.dial a c]) conn (connectHeaders env c) with
        ⟨sess, err⟩
      cases err with
      | none =>
        rw [Connect_ok env p tr a b c conn sess hd hp hs]
        simp [hp, hs]
      | some e =>
        rw [Connect_session_error env p tr a b c conn sess e hd hp hs]
        simp [hc, hp, hs]
    · rw [Connect_unsupported env p tr a b c conn hd hp]
      simp [hc, hp]

theorem Connect_connected_iff_witness :
    (Connect envUp zero [] "tcp" "STOMP" "broker:61613").p.connected = true ↔
      ∃ conn sess, envUp.dial [] "tcp" "broker:61613" = .ok conn ∧ toLower "STOMP" = "stomp" ∧
        envUp.stompConnect ([] ++ [Event.dial "tcp" "broker:61613"]) conn
          (connectHeaders envUp "broker:61613") = (sess, none) :=
  Connect_connected_iff envUp zero [] "tcp" "STOMP" "broker:61613" rfl

/-- The method `Connect` returns an error exactly when the dial succeeded and
then either the protocol name is not "stomp" up to case or the session
negotiation returned an error.  A failed dial is not reported. -/
theorem Connect_error_iff (env : Env) (p : Publisher) (tr : Trace) (a b c : String) :
    (Connect env p tr a b c).err ≠ none ↔
      ∃ conn, env.dial tr a c = .ok conn ∧
        (toLower b ≠ "stomp" ∨
          ∃ sess e, env.stompConnect (tr ++ [Event.dial a c]) conn (connectHeaders env c) =
            (sess, some e)) := by
  cases hd : env.dial tr a c with
  | error e =>
    rw [Connect_dial_error env p tr a b c e hd]
    simp
  | ok conn =>
    by_cases hp : toLower b = "stomp"
    · rcases hs : env.stompConnect (tr ++ [Event.dial a c]) conn (connectHeaders env c) with
        ⟨sess, err⟩
      cases err with
      | none =>
        rw [Connect_ok env p tr a b c conn sess hd hp hs]
        simp [hp, hs]
      | some e =>
        rw [Connect_session_error env p tr a b c conn sess e hd hp hs]
        simp [hp, hs]
    · rw [Connect_unsupported env p tr a b c conn hd hp]
      simp [hp]

/-! ## Send: the loop that does not end -/

/-- When every dial and every session negotiation succeeds and every session
send fails, `Send` on a connected Publisher never returns: no bound on the
number of passes through `TOP` is enough. -/
theorem Send_never_returns_while_sends_fail (env : Env)
    (hsend : ∀ tr s h b, env.stompSend tr s h b ≠ none)
    (hdial : ∀ tr a c, ∃ conn, env.dial tr a c = .ok conn)
    (hsess : ∀ tr c h, ∃ s, env.stompConnect tr c h = (some s, none))
    (hdisc : ∀ tr s h, env.stompDisconnect tr s h = none) :
    ∀ (fuel : Nat) (p : Publisher) (tr : Trace) (m : String),
      p.connected = true → p.stompMsgHeaderSet = true → toLower p.messageProtocol = "stomp" →
      p.stompConn ≠ none → p.transportConn ≠ none →
      Send env fuel p tr m = none := by
  intro fuel
  induction fuel with
  | zero => intro p tr m _ _ _ _ _; rfl
  | succ n ih =>
    intro p tr m hc hh hp hs ht
    obtain ⟨s, hs'⟩ := Option.ne_none_iff_exists'.1 hs
    obtain ⟨c0, ht'⟩ := Option.ne_none_iff_exists'.1 ht
    obtain ⟨e, he⟩ := Option.ne_none_iff_exists'.1 (hsend tr s p.stompMsgHeader m)
    have hdret : ∃ d, Disconnect env (shift p m)
        (tr ++ [Event.stompSend s p.stompMsgHeader m]) = .ret d := by
      unfold Disconnect
      simp only [isConnected, shift, hc, hp, hs', ht', hdisc, if_true]
      cases env.close (tr ++ [Event.stompSend s p.stompMsgHeader m] ++
        [Event.stompDisconnect s p.stompConnHeader]) c0 <;> simp
    obtain ⟨d, hd⟩ := hdret
    rw [Send_retry env n p tr m s e d hc hh hs' he hd]
    obtain ⟨conn, hconn⟩ := hdial d.tr p.transportProtocol p.MBSTarget
    obtain ⟨s2, hs2⟩ := hsess (d.tr ++ [Event.dial p.transportProtocol p.MBSTarget]) conn
      (connectHeaders env p.MBSTarget)
    have hr : afterReconnect env p m d =
        ⟨{ shift p m with connected := true, transportConn := some conn,
                          stompConnHeader := connectHeaders env p.MBSTarget,
                          stompConn := some s2 },
          d.tr ++ [Event.dial p.transportProtocol p.MBSTarget,
            Event.stompConnect conn (connectHeaders env p.MBSTarget)], none⟩ := by
      unfold afterReconnect
      rw [Connect_ok env _ d.tr _ _ _ conn (some s2) hconn hp hs2]
      rfl
    rw [hr]
    exact ih _ _ m rfl hh hp (by simp) (by simp)

theorem Send_never_returns_while_sends_fail_witness :
    Send envSendsFail 1000 connectedPublisher [] "hello" = none :=
  Send_never_returns_while_sends_fail envSendsFail
    (fun _ _ _ _ => by simp [envSendsFail])
    (fun tr _ _ => ⟨tr.length, rfl⟩)
    (fun tr _ _ => ⟨tr.length, rfl⟩)
    (fun _ _ _ => rfl)
    1000 connectedPublisher [] "hello" rfl rfl (by decide) (by decide) (by decide)

/-! ## The stream mode, on every input -/

theorem splitNewline_ne_nil (input : List Char) : splitNewline input ≠ [] := by
  cases input with
  | nil => simp [splitNewline]
  | cons c cs =>
    rw [splitNewline]
    split
    · simp
    · split <;> simp

theorem ReadString_eof (input : List Char) (h : (ReadString input).2.1 = true) :
    splitNewline input = [input] := by
  induction input with
  | nil => rfl
  | cons c cs ih =>
    rw [ReadString] at h
    by_cases hc : c = '\n'
    · simp [hc] at h
    · simp only [hc, if_false] at h
      rw [splitNewline, ih h]
      simp [hc]

theorem ReadString_line (input : List Char) (h : (ReadString input).2.1 = false) :
    ∃ pre, (ReadString input).1 = pre ++ ['\n'] ∧ '\n' ∉ pre ∧
      splitNewline input = pre :: splitNewline (ReadString input).2.2 ∧
      (ReadString input).2.2.length < input.length := by
  induction input with
  | nil => simp [ReadString] at h
  | cons c cs ih =>
    by_cases hc : c = '\n'
    · refine ⟨[], ?_, by simp, ?_, ?_⟩ <;> simp [ReadString, splitNewline, hc]
    · have h2 : (ReadString cs).2.1 = false := by
        rw [ReadString] at h
        simpa [hc] using h
      obtain ⟨pre, h1, hn, hsp, hlen⟩ := ih h2
      refine ⟨c :: pre, ?_, ?_, ?_, ?_⟩
      · simp [ReadString, hc, h1]
      · simp [hn, Ne.symm hc]
      · rw [splitNewline]
        simp only [hc, if_false]
        rw [hsp]
        simp [ReadString, hc]
      · simp only [ReadString, hc, if_false, List.length_cons]
        omega

theorem stdinLoop_eq (env : Env) (fuel : Nat) : ∀ (n : Nat) (input : List Char) (p : Publisher)
    (tr : Trace) (calls : List String), input.length < n →
    main.stdinLoop env fuel n input p tr calls =
      sendEach env fuel (((splitNewline input).dropLast.map String.mk).filter (· ≠ "")) p tr
        calls := by
  intro n
  induction n with
  | zero => intro input p tr calls h; omega
  | succ n ih =>
    intro input p tr calls hlen
    rw [main.stdinLoop]
    cases hr : (ReadString input).2.1 with
    | true =>
      simp only [if_true]
      rw [ReadString_eof input hr]
      rfl
    | false =>
      obtain ⟨pre, h1, hn, hsp, hl⟩ := ReadString_line input hr
      have hdrop : (splitNewline input).dropLast =
          pre :: (splitNewline (ReadString input).2.2).dropLast := by
        rw [hsp]
        cases hx : splitNewline (ReadString input).2.2 with
        | nil => exact absurd hx (splitNewline_ne_nil _)
        | cons y ys => rfl
      have hrec := fun q t cl => ih (ReadString input).2.2 q t cl (by omega)
      rw [hdrop]
      simp only [Bool.false_eq_true, if_false, h1, List.map_cons]
      cases pre with
      | nil =>
        have e1 : ¬ ((String.mk ([] ++ ['\n']) ≠ "") ∧ (String.mk ([] ++ ['\n']) ≠ "\n")) := by
          decide
        rw [if_neg e1, hrec]
        rw [List.filter_cons_of_neg (by decide)]
      | cons a as =>
        have e1 : (String.mk (a :: as ++ ['\n']) ≠ "") ∧ (String.mk (a :: as ++ ['\n']) ≠ "\n") := by
          constructor
          · intro hh
            have := congrArg String.data hh
            simp at this
          · intro hh
            have := congrArg String.data hh
            simp at this
        have e2 : (a :: as ++ ['\n']).filter (· ≠ '\n') = a :: as := by
          rw [List.filter_append]
          have : (a :: as).filter (· ≠ '\n') = a :: as := by
            rw [List.filter_eq_self]
            intro x hx
            have : x ≠ '\n' := fun hh => hn (hh ▸ hx)
            simpa using this
          rw [this]
          simp
        have e3 : String.mk (a :: as) ≠ "" := by
          intro hh
          have := congrArg String.data hh
          simp at this
        rw [if_pos e1]
        simp only [e2]
        rw [List.filter_cons_of_pos (by simpa using e3), sendEach]
        cases hsend : Send env fuel p tr (String.mk (a :: as)) with
        | none => rfl
        | some out =>
          cases out with
          | panic t => rfl
          | ret r => simp only [hrec]

/-- On every input the stream mode of `main` calls `Send` once for each
non-empty piece of the input split on the newline, the piece after the last
newline left out, in input order and whatever each `Send` returns, and ends
without an error; the iteration bound of the model is never reached. -/
theorem stdin_sends_terminated_lines (env : Env) (fuel : Nat) (p : Publisher) (tr : Trace)
    (input : String) :
    main.stdin env fuel p tr input =
      sendEach env fuel (((Split input).dropLast).filter (· ≠ "")) p tr [] := by
  unfold main.stdin Split
  have h := stdinLoop_eq env fuel (input.length + 1) input.data p tr [] (Nat.lt_succ_self _)
  rw [h, List.map_dropLast]

end Publisher
